import Mathlib

/-
Shallow embedding of `src/asciidraw.c` (terror/asciidraw).

Conventions of the embedding:
* C `int` is modelled as `Int` (the program performs no overflowing
  arithmetic on the sizes involved in the claims).
* The heap-allocated `char **state` buffer is modelled as a total function
  `Int → Int → Char`; the C access `state[a][b]` is `state a b`.  Cells that
  the C program never wrote hold an arbitrary prior value, which the model
  keeps unchanged (malloc contents are unspecified).
* `printf` output of the handlers is modelled as a returned `List String`
  of the printed lines.  `plot` prints nothing and returns only the grid.
* Loops are translated to structural recursions: counted `for` loops into
  folds / fuel recursion with the exact iteration count, and the circle
  `while (y >= x)` loop into a fuel recursion whose fuel `(y - x + 1).toNat`
  is an upper bound on the remaining iterations (each iteration decreases
  `y - x` by at least one, and when the fuel reaches zero the guard
  `x ≤ y` is already false, so the fuel version exits exactly when the
  C loop does).
-/

namespace AsciiDraw

/-- All available commands the interpreter can evaluate (`enum Command`). -/
inductive Command
  | CHAR
  | CIRCLE
  | CLEAR
  | DISPLAY
  | END
  | GRID
  | INVALID
  | LINE
  | POINT
  | RECTANGLE
deriving DecidableEq, Repr

/-- The table `COMMAND_STRING` associating a `Command` with a string. -/
def COMMAND_STRING : List (Command × String) :=
  [(Command.CHAR, "CHAR"), (Command.CIRCLE, "CIRCLE"), (Command.CLEAR, "CLEAR"),
   (Command.DISPLAY, "DISPLAY"), (Command.END, "END"), (Command.GRID, "GRID"),
   (Command.LINE, "LINE"), (Command.POINT, "POINT"), (Command.RECTANGLE, "RECTANGLE")]

/-- `command_from_string`: scan the table in order, return the first entry whose
string compares equal, and `INVALID` when none does. -/
def command_from_string (str : String) : Command :=
  match COMMAND_STRING.find? (fun p => p.2 == str) with
  | some p => p.1
  | none => Command.INVALID

/-- `struct Operation`: a command together with its arguments and original name.
The fixed `int args[4]` array is modelled as a 4-tuple. -/
structure Operation where
  name : String
  cmd : Command
  args : Int × Int × Int × Int

/-- `struct Grid`: the canvas.  `state a b` models the C access `state[a][b]`. -/
structure Grid where
  state : Int → Int → Char
  character : Char
  width : Int
  height : Int
  initialized : Bool

/-- `in_bounds`: whether `(x, y)` is inside the drawing area. -/
def in_bounds (g : Grid) (x y : Int) : Bool :=
  decide (0 ≤ x) && decide (x < g.width) && decide (0 ≤ y) && decide (y < g.height)

/-- `plot`: write the current draw character at `state[x][y]` when in bounds,
otherwise return without doing anything (and without reporting). -/
def plot (g : Grid) (x y : Int) : Grid :=
  if in_bounds g x y then
    { g with state := fun a b => if a = x ∧ b = y then g.character else g.state a b }
  else g

/-- Apply `plot` successively at each position of a list (the sequence of
`plot` calls a rasterizer performs). -/
def plotList (g : Grid) (ps : List (Int × Int)) : Grid :=
  ps.foldl (fun h p => plot h p.1 p.2) g

/-- One iteration of the `bresenham_line` loop body acting on the mutable
locals `(x1, y1, pk)`: first `x1` is stepped (`x1 < x2 ? ++x1 : --x1`), then
`pk` decides whether `y1` also steps, and `pk` is updated. -/
def blStep (x2 y2 dx dy : Int) (s : Int × Int × Int) : Int × Int × Int :=
  let x1 := if s.1 < x2 then s.1 + 1 else s.1 - 1
  if s.2.2 < 0 then
    (x1, s.2.1, s.2.2 + 2 * dy)
  else
    (x1, if s.2.1 < y2 then s.2.1 + 1 else s.2.1 - 1, s.2.2 + 2 * dy - 2 * dx)

/-- The positions passed to `plot` by the `for (i = 0; i <= dx; ++i)` loop of
`bresenham_line`, before the `decide` swap; one position is emitted per
iteration, after the locals are stepped. -/
def blSteps (x1 y1 x2 y2 dx dy pk : Int) : Nat → List (Int × Int)
  | 0 => []
  | n + 1 =>
    let s := blStep x2 y2 dx dy (x1, y1, pk)
    (s.1, s.2.1) :: blSteps s.1 s.2.1 x2 y2 dx dy s.2.2 n

/-- The full sequence of positions `bresenham_line` passes to `plot`:
`pk` starts at `2 * dy - dx`, the loop runs `dx + 1` times (`i = 0 .. dx`),
and when `decide` is set each call is `plot(grid, y1, x1)` instead of
`plot(grid, x1, y1)`. -/
def bresenham_line_plots (x1 y1 x2 y2 dx dy : Int) (dec : Bool) : List (Int × Int) :=
  (blSteps x1 y1 x2 y2 dx dy (2 * dy - dx) (dx + 1).toNat).map
    (fun p => if dec then (p.2, p.1) else p)

/-- `bresenham_line`: the grid effect of the rasterizer loop. -/
def bresenham_line (g : Grid) (x1 y1 x2 y2 dx dy : Int) (dec : Bool) : Grid :=
  plotList g (bresenham_line_plots x1 y1 x2 y2 dx dy dec)

/-- The single-quote character, used by the error message below. -/
def apos : String := String.singleton (Char.ofNat 39)

/-- The error line printed by handlers that require an initialized grid. -/
def errNotInit : String := "error: Grid isn" ++ apos ++ "t initialized"

/-- The sequence of positions the `line` handler passes to `plot`: the start
point explicitly, then the rasterizer loop, driven by `x` when `dx > dy` and
otherwise by `y` with the arguments exchanged and the swap flag set. -/
def line_plots (x1 y1 x2 y2 : Int) : List (Int × Int) :=
  let dx := |x2 - x1|
  let dy := |y2 - y1|
  (x1, y1) ::
    (if dx > dy then bresenham_line_plots x1 y1 x2 y2 dx dy false
     else bresenham_line_plots y1 x1 y2 x2 dy dx true)

/-- Handler for the `LINE` operation. -/
def line (g : Grid) (x1 y1 x2 y2 : Int) : Grid × List String :=
  if g.initialized then (plotList g (line_plots x1 y1 x2 y2), [])
  else (g, [errNotInit])

/-- The 8-way symmetric block of `plot` calls `bresenham_circle` emits for an
offset `(x, y)` from the center `(xc, yc)`, in source order. -/
def sym8 (xc yc x y : Int) : List (Int × Int) :=
  [(xc + x, yc + y), (xc - x, yc + y), (xc + x, yc - y), (xc - x, yc - y),
   (xc + y, yc + x), (xc - y, yc + x), (xc + y, yc - x), (xc - y, yc - x)]

/-- The `while (y >= x)` loop of `bresenham_circle`: step `x`, possibly step
`y` and update `d`, then emit the 8-way block; fuel as explained above. -/
def circleLoop (xc yc : Int) : Int → Int → Int → Nat → List (Int × Int)
  | _, _, _, 0 => []
  | x, y, d, fuel + 1 =>
    if x ≤ y then
      let x1 := x + 1
      let y1 := if 0 < d then y - 1 else y
      let d1 := if 0 < d then d + 4 * (x1 - y1) + 10 else d + 4 * x1 + 6
      sym8 xc yc x1 y1 ++ circleLoop xc yc x1 y1 d1 fuel
    else []

/-- The full sequence of positions `bresenham_circle` passes to `plot`:
the initial block at `x = 0, y = radius`, then the loop with
`d = 3 - 2 * radius`. -/
def bresenham_circle_plots (xc yc radius : Int) : List (Int × Int) :=
  sym8 xc yc 0 radius ++ circleLoop xc yc 0 radius (3 - 2 * radius) (radius + 1).toNat

/-- `bresenham_circle`: the grid effect of the circle rasterizer. -/
def bresenham_circle (g : Grid) (xc yc radius : Int) : Grid :=
  plotList g (bresenham_circle_plots xc yc radius)

/-- Handler for the `CHAR` operation: `grid->character = (char)args[0]`
(the C cast is modelled as truncation to an 8-bit code point). -/
def character (g : Grid) (c : Int) : Grid :=
  { g with character := Char.ofNat (c.emod 256).toNat }

/-- Handler for the `CIRCLE` operation. -/
def circle (g : Grid) (x y radius : Int) : Grid × List String :=
  if g.initialized then (bresenham_circle g x y radius, [])
  else (g, [errNotInit])

/-- A single assignment `state[a][b] = c`. -/
def setCell (g : Grid) (a b : Int) (c : Char) : Grid :=
  { g with state := fun p q => if p = a ∧ q = b then c else g.state p q }

/-- The double loop `for (i = 0; i < h; ++i) for (j = 0; j < w; ++j)
state[i][j] = ' '`, shared by the bodies of `clear` and `grid`. -/
def fillSpace (g : Grid) (w h : Int) : Grid :=
  (List.range h.toNat).foldl
    (fun g1 i => (List.range w.toNat).foldl (fun g2 j => setCell g2 (i : Int) (j : Int) ' ') g1)
    g

/-- Handler for the `CLEAR` operation.  Note: the C `clear` performs no
`initialized` check and prints nothing; it runs the fill loop with bounds
`i < grid->height`, `j < grid->width` directly. -/
def clear (g : Grid) : Grid := fillSpace g g.width g.height

/-- The ruler digit `((9 - i) % wrap + wrap) % wrap` with `wrap = 10`,
using C truncated `%`. -/
def rulerDigit (i : Nat) : Int := ((9 - (i : Int)).tmod 10 + 10).tmod 10

/-- Handler for the `DISPLAY` operation: for `i < width` print one line
consisting of the ruler digit, a space and the characters `state[j][i]` for
`j < height`; then a final line of a space followed by the digits
for `i < width`. -/
def display (g : Grid) : List String :=
  if g.initialized then
    (List.range g.width.toNat).map (fun i =>
      toString (rulerDigit i) ++ " " ++
        String.mk ((List.range g.height.toNat).map (fun j => g.state (j : Int) (i : Int))))
    ++ [" " ++ String.join ((List.range g.width.toNat).map (fun i => toString (rulerDigit i)))]
  else [errNotInit]

/-- Handler for the `GRID` operation: reject when already initialized;
otherwise fill `state[i][j] = ' '` for `i < height`, `j < width`, then set
the dimensions and the flag.  (The mallocs only shape memory and are not
part of the functional state.) -/
def grid (g : Grid) (width height : Int) : Grid × List String :=
  if g.initialized then (g, ["error: Grid has already been initialized"])
  else
    ({ fillSpace g width height with width := width, height := height, initialized := true }, [])

/-- Handler for the `POINT` operation. -/
def point (g : Grid) (x y : Int) : Grid × List String :=
  if g.initialized then (plot g x y, []) else (g, [errNotInit])

/-- Handler for the `RECTANGLE` operation: four `line` calls in source order. -/
def rectangle (g : Grid) (x1 y1 x2 y2 : Int) : Grid × List String :=
  if g.initialized then
    let r1 := line g x1 y1 (x1 + |x2 - x1|) y1
    let r2 := line r1.1 (x1 + |x2 - x1|) y1 x2 y2
    let r3 := line r2.1 x2 y2 x1 (y1 + |y2 - y1|)
    let r4 := line r3.1 x1 (y1 + |y2 - y1|) x1 y1
    (r4.1, r1.2 ++ r2.2 ++ r3.2 ++ r4.2)
  else (g, [errNotInit])

/-- `eval`: dispatch the loaded operation to its handler.  The result is the
new grid, the printed lines, and whether the `END` transition (`exit(0)`)
was taken. -/
def eval (g : Grid) (op : Operation) : Grid × List String × Bool :=
  match op.cmd with
  | Command.CHAR => (character g op.args.1, [], false)
  | Command.CIRCLE =>
    let r := circle g op.args.1 op.args.2.1 op.args.2.2.1
    (r.1, r.2, false)
  | Command.CLEAR => (clear g, [], false)
  | Command.DISPLAY => (g, display g, false)
  | Command.END => (g, [], true)
  | Command.GRID =>
    let r := grid g op.args.1 op.args.2.1
    (r.1, r.2, false)
  | Command.INVALID => (g, ["error: Invalid command `" ++ op.name ++ "`"], false)
  | Command.LINE =>
    let r := line g op.args.1 op.args.2.1 op.args.2.2.1 op.args.2.2.2
    (r.1, r.2, false)
  | Command.POINT =>
    let r := point g op.args.1 op.args.2.1
    (r.1, r.2, false)
  | Command.RECTANGLE =>
    let r := rectangle g op.args.1 op.args.2.1 op.args.2.2.1 op.args.2.2.2
    (r.1, r.2, false)

/-- The interpreter state built in `main`: `character = '*'`,
`initialized = 0`, and the remaining members zero-initialized
(`width = height = 0`); the unallocated buffer is modelled as blank. -/
def initG : Grid :=
  { state := fun _ _ => ' ', character := '*', width := 0, height := 0, initialized := false }

/-- A sample initialized 10 × 10 canvas, as produced by `GRID 10 10`. -/
def exGrid : Grid :=
  { state := fun _ _ => ' ', character := '*', width := 10, height := 10, initialized := true }

/-- A sample initialized canvas of width 2 and height 3. -/
def g23 : Grid :=
  { state := fun _ _ => ' ', character := '*', width := 2, height := 3, initialized := true }

/-- The fields of the canvas other than the cell contents agree. -/
def framePreserved (g h : Grid) : Prop :=
  h.character = g.character ∧ h.width = g.width ∧ h.height = g.height ∧
    h.initialized = g.initialized

/-- The position a loop-state triple plots. -/
def pos (s : Int × Int × Int) : Int × Int := (s.1, s.2.1)

/-- The `bresenham_line` loop state after `i` iterations, for a call with
endpoints `(a1, b1)`, `(a2, b2)`, driving delta `D` and secondary delta `E`
(so `pk` starts at `2 * E - D`). -/
def blIter (a1 b1 a2 b2 D E : Int) (i : Nat) : Int × Int × Int :=
  (blStep a2 b2 D E)^[i] (a1, b1, 2 * E - D)

/-- The position plotted by iteration `i` of that loop. -/
def blPt (a1 b1 a2 b2 D E : Int) (i : Nat) : Int × Int :=
  pos (blIter a1 b1 a2 b2 D E (i + 1))

/-- A plot-call list is closed under the 8-way reflections about `(xc, yc)`. -/
def closedSym8 (xc yc : Int) (l : List (Int × Int)) : Prop :=
  ∀ u v : Int, (xc + u, yc + v) ∈ l → ∀ q ∈ sym8 xc yc u v, q ∈ l

end AsciiDraw

namespace AsciiDraw

/- ### Frame lemmas -/

theorem framePreserved_refl (g : Grid) : framePreserved g g :=
  ⟨rfl, rfl, rfl, rfl⟩

theorem framePreserved_trans {g h k : Grid} (h1 : framePreserved g h)
    (h2 : framePreserved h k) : framePreserved g k :=
  ⟨h2.1.trans h1.1, h2.2.1.trans h1.2.1, h2.2.2.1.trans h1.2.2.1,
    h2.2.2.2.trans h1.2.2.2⟩

theorem plot_frame (g : Grid) (x y : Int) : framePreserved g (plot g x y) := by
  unfold plot
  split
  · exact ⟨rfl, rfl, rfl, rfl⟩
  · exact framePreserved_refl g

theorem plotList_frame (ps : List (Int × Int)) (g : Grid) :
    framePreserved g (plotList g ps) := by
  induction ps generalizing g with
  | nil => exact framePreserved_refl g
  | cons p t ih =>
    exact framePreserved_trans (plot_frame g p.1 p.2) (ih (plot g p.1 p.2))

theorem line_fst_frame (g : Grid) (x1 y1 x2 y2 : Int) :
    framePreserved g (line g x1 y1 x2 y2).1 := by
  unfold line
  split
  · exact plotList_frame _ g
  · exact framePreserved_refl g

theorem rectangle_fst_frame (g : Grid) (x1 y1 x2 y2 : Int) :
    framePreserved g (rectangle g x1 y1 x2 y2).1 := by
  unfold rectangle
  split
  · exact framePreserved_trans (line_fst_frame g _ _ _ _)
      (framePreserved_trans (line_fst_frame _ _ _ _ _)
        (framePreserved_trans (line_fst_frame _ _ _ _ _) (line_fst_frame _ _ _ _ _)))
  · exact framePreserved_refl g

/-- Claim C10: the drawing operations `point`, `line`, `circle` and
`rectangle` modify at most the cell contents: the width, the height, the
current draw character and the initialized flag are unchanged by every
invocation. -/
theorem drawing_ops_frame (g : Grid) (x y x1 y1 x2 y2 cx cy r : Int) :
    framePreserved g (point g x y).1 ∧
    framePreserved g (line g x1 y1 x2 y2).1 ∧
    framePreserved g (circle g cx cy r).1 ∧
    framePreserved g (rectangle g x1 y1 x2 y2).1 := by
  refine ⟨?_, line_fst_frame g x1 y1 x2 y2, ?_, rectangle_fst_frame g x1 y1 x2 y2⟩
  · unfold point
    split
    · exact plot_frame g x y
    · exact framePreserved_refl g
  · unfold circle bresenham_circle
    split
    · exact plotList_frame _ g
    · exact framePreserved_refl g

/- ### C4: the plotting primitive -/

/-- Claim C4: for an in-bounds `(x, y)`, `plot` writes the current draw
character into cell `(x, y)`, changes no other cell and no other field; for
every other `(x, y)` the canvas is entirely unchanged (and `plot` has no
error channel at all). -/
theorem plot_spec (g : Grid) (x y : Int) :
    (in_bounds g x y = true →
      (plot g x y).state x y = g.character ∧
      (∀ a b : Int, ¬(a = x ∧ b = y) → (plot g x y).state a b = g.state a b) ∧
      framePreserved g (plot g x y)) ∧
    (in_bounds g x y = false → plot g x y = g) := by
  constructor
  · intro h
    refine ⟨?_, ?_, plot_frame g x y⟩
    · simp [plot, h]
    · intro a b hab
      simp [plot, h, hab]
  · intro h
    simp [plot, h]

/-- Witness for C4: on the sample 10 × 10 canvas, `plot` at `(3, 4)` writes
the draw character there, and `plot` at the out-of-bounds `(12, 0)` returns
the canvas unchanged. -/
theorem plot_spec_witness :
    (plot exGrid 3 4).state 3 4 = exGrid.character ∧ plot exGrid 12 0 = exGrid :=
  ⟨((plot_spec exGrid 3 4).1 (by decide)).1, (plot_spec exGrid 12 0).2 (by decide)⟩

/- ### C5: double initialization -/

/-- Claim C5: a second `GRID` call on an already-initialized canvas reports
`Grid has already been initialized` and returns the canvas — buffer,
dimensions, draw character and flag — completely unchanged, for any
arguments. -/
theorem grid_reinit (g : Grid) (w h : Int) (hg : g.initialized = true) :
    grid g w h = (g, ["error: Grid has already been initialized"]) := by
  simp [grid, hg]

/-- Witness for C5 at a concrete initialized canvas. -/
theorem grid_reinit_witness :
    exGrid.initialized = true ∧
    grid exGrid 5 5 = (exGrid, ["error: Grid has already been initialized"]) :=
  ⟨rfl, grid_reinit exGrid 5 5 rfl⟩

/- ### C2: operations on an uninitialized canvas -/

/-- Claim C2 (behavior of the code): on a canvas whose `initialized` flag is
false, `point`, `line`, `circle`, `rectangle` and `display` each report
`Grid isn't initialized` and leave the canvas unchanged — but `clear`
performs no check at all: dispatching `CLEAR` prints nothing, and it leaves
the canvas unchanged only because every reachable uninitialized state has
`width = height = 0` (zero-initialized in `main`), which empties its fill
loop. -/
theorem uninit_ops (g : Grid) (x y x2 y2 r : Int) (h : g.initialized = false) :
    point g x y = (g, [errNotInit]) ∧
    line g x y x2 y2 = (g, [errNotInit]) ∧
    circle g x y r = (g, [errNotInit]) ∧
    rectangle g x y x2 y2 = (g, [errNotInit]) ∧
    display g = [errNotInit] ∧
    (∀ (nm : String) (a : Int × Int × Int × Int),
      eval g ⟨nm, Command.CLEAR, a⟩ = (clear g, [], false)) ∧
    (g.height ≤ 0 → clear g = g) := by
  refine ⟨?_, ?_, ?_, ?_, ?_, ?_, ?_⟩
  · simp [point, h]
  · simp [line, h]
  · simp [circle, h]
  · simp [rectangle, h]
  · simp [display, h]
  · intro nm a
    rfl
  · intro hh
    simp [clear, fillSpace, Int.toNat_of_nonpos hh]

/-- Witness for C2 at the interpreter's start state: `POINT` reports the
error, while `CLEAR` silently does nothing and reports nothing. -/
theorem uninit_ops_witness :
    initG.initialized = false ∧
    point initG 5 5 = (initG, [errNotInit]) ∧
    eval initG ⟨"CLEAR", Command.CLEAR, (0, 0, 0, 0)⟩ = (clear initG, [], false) ∧
    clear initG = initG := by
  have h := uninit_ops initG 5 5 7 7 3 rfl
  exact ⟨rfl, h.1, h.2.2.2.2.2.1 "CLEAR" (0, 0, 0, 0), h.2.2.2.2.2.2 (by decide)⟩

end AsciiDraw

namespace AsciiDraw

/- ### C3: shape of the display output -/

/-- Claim C3 (code evaluation at the failing input): on the initialized
2 × 3 canvas, `display` produces `width = 2` content rows, each `height = 3`
cells wide, not `height = 3` rows of `width = 2` cells as the claim states;
the ruler digits and the trailing ruler line do follow the claimed shape. -/
theorem display_g23_eval :
    g23.width = 2 ∧ g23.height = 3 ∧ g23.initialized = true ∧
    display g23 = ["9    ", "8    ", " 98"] ∧
    (display g23).length = 2 + 1 := by
  refine ⟨rfl, rfl, rfl, ?_, ?_⟩ <;> rfl

/- ### C6: what `clear` actually clears -/

/-- Claim C6 (code evaluation at the failing input): after `GRID 3 1` and
`POINT 2 0`, the cell `(2, 0)` is in bounds and holds the draw character,
but `clear` — whose fill loop runs over `i < height`, `j < width`, the
transpose of the plot-addressable region — leaves it untouched instead of
resetting it to the space character. -/
theorem clear_misses_cell_eval :
    (grid initG 3 1).1.width = 3 ∧ (grid initG 3 1).1.height = 1 ∧
    (grid initG 3 1).1.initialized = true ∧
    in_bounds (point (grid initG 3 1).1 2 0).1 2 0 = true ∧
    (point (grid initG 3 1).1 2 0).1.state 2 0 = '*' ∧
    (clear (point (grid initG 3 1).1 2 0).1).state 2 0 = '*' ∧
    ('*' : Char) ≠ ' ' := by
  refine ⟨rfl, rfl, rfl, rfl, ?_, ?_, by decide⟩ <;> decide

/- ### C7: totality of the name-to-kind mapping and the invalid branch -/

/-- Claim C7: the name-to-kind mapping is total — each of the nine table
names maps to its kind and every other string maps to `INVALID` — and
dispatching an `INVALID` operation prints exactly
``error: Invalid command `<name>` `` with the original token and performs no
canvas mutation. -/
theorem command_mapping_total :
    command_from_string "CHAR" = Command.CHAR ∧
    command_from_string "CIRCLE" = Command.CIRCLE ∧
    command_from_string "CLEAR" = Command.CLEAR ∧
    command_from_string "DISPLAY" = Command.DISPLAY ∧
    command_from_string "END" = Command.END ∧
    command_from_string "GRID" = Command.GRID ∧
    command_from_string "LINE" = Command.LINE ∧
    command_from_string "POINT" = Command.POINT ∧
    command_from_string "RECTANGLE" = Command.RECTANGLE ∧
    (∀ s : String,
      s ∉ ["CHAR", "CIRCLE", "CLEAR", "DISPLAY", "END", "GRID",
           "LINE", "POINT", "RECTANGLE"] →
      command_from_string s = Command.INVALID) ∧
    (∀ (g : Grid) (op : Operation), op.cmd = Command.INVALID →
      eval g op = (g, ["error: Invalid command `" ++ op.name ++ "`"], false)) := by
  refine ⟨rfl, rfl, rfl, rfl, rfl, rfl, rfl, rfl, rfl, ?_, ?_⟩
  · intro s hs
    simp only [List.mem_cons, List.not_mem_nil, or_false, not_or] at hs
    obtain ⟨h1, h2, h3, h4, h5, h6, h7, h8, h9⟩ := hs
    have hnone : COMMAND_STRING.find? (fun p => p.2 == s) = none := by
      rw [List.find?_eq_none]
      intro p hp
      simp only [COMMAND_STRING, List.mem_cons, List.not_mem_nil, or_false] at hp
      rcases hp with h | h | h | h | h | h | h | h | h <;> subst h <;>
        simp only [beq_iff_eq] <;> (intro he; subst he; simp_all)
    simp [command_from_string, hnone]
  · intro g op h
    obtain ⟨nm, c, a⟩ := op
    simp only at h
    subst h
    rfl

/-- Witness for C7: the unrecognized token `FOO` maps to `INVALID`, and
dispatching it prints the literal error with the original token while the
canvas is returned unchanged. -/
theorem command_mapping_total_witness :
    command_from_string "FOO" = Command.INVALID ∧
    eval exGrid ⟨"FOO", Command.INVALID, (0, 0, 0, 0)⟩ =
      (exGrid, ["error: Invalid command `FOO`"], false) := by
  obtain ⟨-, -, -, -, -, -, -, -, -, hnot, hinv⟩ := command_mapping_total
  exact ⟨hnot "FOO" (by decide), hinv exGrid ⟨"FOO", Command.INVALID, (0, 0, 0, 0)⟩ rfl⟩

end AsciiDraw

namespace AsciiDraw

/- ### C8: rectangle decomposition into four lines -/

theorem plotList_append (g : Grid) (l1 l2 : List (Int × Int)) :
    plotList g (l1 ++ l2) = plotList (plotList g l1) l2 :=
  List.foldl_append _ _ _ _

theorem plotList_initialized (g : Grid) (l : List (Int × Int)) :
    (plotList g l).initialized = g.initialized :=
  (plotList_frame l g).2.2.2

theorem line_of_initialized (g : Grid) (x1 y1 x2 y2 : Int)
    (hg : g.initialized = true) :
    line g x1 y1 x2 y2 = (plotList g (line_plots x1 y1 x2 y2), []) := by
  simp [line, hg]

/-- Claim C8: on an initialized canvas, `rectangle` performs exactly four
`line` invocations, in source order: `(x1,y1) → (x1+|x2-x1|, y1)`, then
`→ (x2,y2)`, then `(x2,y2) → (x1, y1+|y2-y1|)`, then back to `(x1,y1)`;
its canvas effect is plotting those four lines' plot sequences in that
order, and no error is reported. -/
theorem rectangle_four_lines (g : Grid) (x1 y1 x2 y2 : Int)
    (hg : g.initialized = true) :
    rectangle g x1 y1 x2 y2 =
      (plotList g
        (line_plots x1 y1 (x1 + |x2 - x1|) y1 ++
         line_plots (x1 + |x2 - x1|) y1 x2 y2 ++
         line_plots x2 y2 x1 (y1 + |y2 - y1|) ++
         line_plots x1 (y1 + |y2 - y1|) x1 y1), []) := by
  have h1 : (plotList g (line_plots x1 y1 (x1 + |x2 - x1|) y1)).initialized = true :=
    (plotList_initialized _ _).trans hg
  have h2 : (plotList (plotList g (line_plots x1 y1 (x1 + |x2 - x1|) y1))
      (line_plots (x1 + |x2 - x1|) y1 x2 y2)).initialized = true :=
    (plotList_initialized _ _).trans h1
  have h3 : (plotList (plotList (plotList g (line_plots x1 y1 (x1 + |x2 - x1|) y1))
      (line_plots (x1 + |x2 - x1|) y1 x2 y2))
      (line_plots x2 y2 x1 (y1 + |y2 - y1|))).initialized = true :=
    (plotList_initialized _ _).trans h2
  simp only [rectangle, hg, if_true]
  rw [line_of_initialized _ _ _ _ _ hg]
  simp only
  rw [line_of_initialized _ _ _ _ _ h1]
  simp only
  rw [line_of_initialized _ _ _ _ _ h2]
  simp only
  rw [line_of_initialized _ _ _ _ _ h3]
  simp only [plotList_append, List.append_nil, List.nil_append]

/-- Witness for C8 on the sample canvas with corners `(1, 1)` and `(3, 3)`. -/
theorem rectangle_four_lines_witness :
    rectangle exGrid 1 1 3 3 =
      (plotList exGrid
        (line_plots 1 1 (1 + |(3 : Int) - 1|) 1 ++
         line_plots (1 + |(3 : Int) - 1|) 1 3 3 ++
         line_plots 3 3 1 (1 + |(3 : Int) - 1|) ++
         line_plots 1 (1 + |(3 : Int) - 1|) 1 1), []) :=
  rectangle_four_lines exGrid 1 1 3 3 rfl

/- ### C9: 8-way symmetry of the circle's plotted set -/

theorem mem_sym8_iff (xc yc x y p1 p2 : Int) :
    (p1, p2) ∈ sym8 xc yc x y ↔
      ((p1 - xc).natAbs = x.natAbs ∧ (p2 - yc).natAbs = y.natAbs) ∨
      ((p1 - xc).natAbs = y.natAbs ∧ (p2 - yc).natAbs = x.natAbs) := by
  constructor
  · intro h
    simp only [sym8, List.mem_cons, List.not_mem_nil, or_false, Prod.mk.injEq] at h
    rcases h with ⟨h1, h2⟩ | ⟨h1, h2⟩ | ⟨h1, h2⟩ | ⟨h1, h2⟩ |
      ⟨h1, h2⟩ | ⟨h1, h2⟩ | ⟨h1, h2⟩ | ⟨h1, h2⟩
    · exact Or.inl ⟨by omega, by omega⟩
    · exact Or.inl ⟨by omega, by omega⟩
    · exact Or.inl ⟨by omega, by omega⟩
    · exact Or.inl ⟨by omega, by omega⟩
    · exact Or.inr ⟨by omega, by omega⟩
    · exact Or.inr ⟨by omega, by omega⟩
    · exact Or.inr ⟨by omega, by omega⟩
    · exact Or.inr ⟨by omega, by omega⟩
  · intro h
    rcases h with ⟨h1, h2⟩ | ⟨h1, h2⟩
    · have e1 : p1 = xc + x ∨ p1 = xc - x := by omega
      have e2 : p2 = yc + y ∨ p2 = yc - y := by omega
      rcases e1 with e1 | e1 <;> rcases e2 with e2 | e2 <;> subst e1 <;> subst e2 <;>
        simp [sym8]
    · have e1 : p1 = xc + y ∨ p1 = xc - y := by omega
      have e2 : p2 = yc + x ∨ p2 = yc - x := by omega
      rcases e1 with e1 | e1 <;> rcases e2 with e2 | e2 <;> subst e1 <;> subst e2 <;>
        simp [sym8]

theorem sym8_closed (xc yc x y u v : Int)
    (h : (xc + u, yc + v) ∈ sym8 xc yc x y) :
    ∀ q ∈ sym8 xc yc u v, q ∈ sym8 xc yc x y := by
  intro q hq
  obtain ⟨q1, q2⟩ := q
  rw [mem_sym8_iff] at h hq ⊢
  rcases h with ⟨h1, h2⟩ | ⟨h1, h2⟩ <;> rcases hq with ⟨g1, g2⟩ | ⟨g1, g2⟩
  · exact Or.inl ⟨by omega, by omega⟩
  · exact Or.inr ⟨by omega, by omega⟩
  · exact Or.inr ⟨by omega, by omega⟩
  · exact Or.inl ⟨by omega, by omega⟩

theorem closedSym8_append {xc yc : Int} {l1 l2 : List (Int × Int)}
    (h1 : closedSym8 xc yc l1) (h2 : closedSym8 xc yc l2) :
    closedSym8 xc yc (l1 ++ l2) := by
  intro u v hm q hq
  rcases List.mem_append.1 hm with hm | hm
  · exact List.mem_append_left _ (h1 u v hm q hq)
  · exact List.mem_append_right _ (h2 u v hm q hq)

theorem closedSym8_sym8 (xc yc x y : Int) : closedSym8 xc yc (sym8 xc yc x y) :=
  fun u v hm q hq => sym8_closed xc yc x y u v hm q hq

theorem circleLoop_closed (xc yc : Int) :
    ∀ (fuel : Nat) (x y d : Int), closedSym8 xc yc (circleLoop xc yc x y d fuel) := by
  intro fuel
  induction fuel with
  | zero =>
    intro x y d u v hm
    simp [circleLoop] at hm
  | succ n ih =>
    intro x y d
    rw [circleLoop]
    split
    · exact closedSym8_append (closedSym8_sym8 xc yc _ _) (ih _ _ _)
    · intro u v hm
      simp at hm

/-- Claim C9: for every center and every radius `r ≥ 0`, the set of
positions the circle rasterizer passes to `plot` is closed under the 8
reflections about the center: whenever it plots the offset `(u, v)` from
the center it also plots `(±u, ±v)` and `(±v, ±u)`. -/
theorem circle_plots_symmetric (cx cy r : Int) (hr : 0 ≤ r) :
    ∀ u v : Int, (cx + u, cy + v) ∈ bresenham_circle_plots cx cy r →
      ∀ q ∈ sym8 cx cy u v, q ∈ bresenham_circle_plots cx cy r := by
  intro u v hm q hq
  exact closedSym8_append (closedSym8_sym8 cx cy 0 r)
    (circleLoop_closed cx cy _ 0 r (3 - 2 * r)) u v hm q hq

/-- Witness for C9: the radius-1 circle at the origin plots `(0, 1)`
(offset `(0, 1)`), hence also its reflection `(0, -1)`. -/
theorem circle_plots_symmetric_witness :
    (0 : Int) ≤ 1 ∧
    ((0 : Int) + 0, (0 : Int) + 1) ∈ bresenham_circle_plots 0 0 1 ∧
    ((0 : Int), (-1 : Int)) ∈ bresenham_circle_plots 0 0 1 :=
  ⟨by decide, by decide,
    circle_plots_symmetric 0 0 1 (by decide) 0 1 (by decide) (0, -1) (by decide)⟩

end AsciiDraw

namespace AsciiDraw

/- ### C1: the number of distinct positions the line handler plots -/

theorem blSteps_eq_iterates (x2 y2 dx dy : Int) (m : Nat) :
    ∀ a b pk : Int,
      blSteps a b x2 y2 dx dy pk m =
        (List.range m).map (fun i => pos ((blStep x2 y2 dx dy)^[i + 1] (a, b, pk))) := by
  induction m with
  | zero => intro a b pk; rfl
  | succ n ih =>
    intro a b pk
    rw [List.range_succ_eq_map, List.map_cons, List.map_map]
    have htail :
        ((fun i => pos ((blStep x2 y2 dx dy)^[i + 1] (a, b, pk))) ∘ Nat.succ) =
          fun i => pos ((blStep x2 y2 dx dy)^[i + 1] (blStep x2 y2 dx dy (a, b, pk))) := by
      funext i
      show pos ((blStep x2 y2 dx dy)^[i + 1 + 1] (a, b, pk)) = _
      rw [Function.iterate_succ_apply]
    rw [htail]
    show ((blStep x2 y2 dx dy (a, b, pk)).1, (blStep x2 y2 dx dy (a, b, pk)).2.1) ::
        blSteps (blStep x2 y2 dx dy (a, b, pk)).1 (blStep x2 y2 dx dy (a, b, pk)).2.1
          x2 y2 dx dy (blStep x2 y2 dx dy (a, b, pk)).2.2 n = _
    rw [ih]
    rfl

theorem blIter_inv (a1 b1 a2 b2 D E : Int) (hDa : a2 - a1 = D) (hEb : b2 - b1 = E)
    (hD1 : 1 ≤ D) (hE0 : 0 ≤ E) (hED : E ≤ D) :
    ∀ i : Nat, (i : Int) ≤ D →
      (blIter a1 b1 a2 b2 D E i).1 = a1 + i ∧
      b1 ≤ (blIter a1 b1 a2 b2 D E i).2.1 ∧
      (blIter a1 b1 a2 b2 D E i).2.1 ≤ b2 ∧
      (blIter a1 b1 a2 b2 D E i).2.2 =
        2 * E + 2 * D * (b2 - (blIter a1 b1 a2 b2 D E i).2.1)
          - 2 * E * (a2 - (a1 + i)) - D ∧
      2 * E - 2 * D ≤ (blIter a1 b1 a2 b2 D E i).2.2 ∧
      (blIter a1 b1 a2 b2 D E i).2.2 ≤ 2 * E - 1 := by
  intro i
  induction i with
  | zero =>
    intro _
    refine ⟨by simp [blIter], by simp [blIter], by simp [blIter]; omega, ?_, ?_, ?_⟩
    · show (2 * E - D) = 2 * E + 2 * D * (b2 - b1) - 2 * E * (a2 - (a1 + ((0 : Nat) : Int))) - D
      have h1 : a2 - (a1 + ((0 : Nat) : Int)) = D := by omega
      rw [h1, hEb]
      ring
    · show 2 * E - 2 * D ≤ 2 * E - D
      omega
    · show (2 * E - D) ≤ 2 * E - 1
      omega
  | succ n ih =>
    intro hi1
    have hi1' : (n : Int) + 1 ≤ D := by push_cast at hi1; omega
    obtain ⟨hA, hB1, hB2, hsync, hw1, hw2⟩ := ih (by omega)
    have hstep : blIter a1 b1 a2 b2 D E (n + 1) =
        blStep a2 b2 D E (blIter a1 b1 a2 b2 D E n) := by
      unfold blIter
      rw [Function.iterate_succ_apply']
    set t := blIter a1 b1 a2 b2 D E n with ht
    have hAlt : t.1 < a2 := by omega
    rcases lt_or_le t.2.2 0 with hPK | hPK
    · have hf : blStep a2 b2 D E t = (t.1 + 1, t.2.1, t.2.2 + 2 * E) := by
        dsimp only [blStep]
        rw [if_pos hPK, if_pos hAlt]
      rw [hstep, hf]
      refine ⟨?_, hB1, hB2, ?_, ?_, ?_⟩
      · show t.1 + 1 = a1 + ((n + 1 : Nat) : Int)
        push_cast
        omega
      · show t.2.2 + 2 * E =
          2 * E + 2 * D * (b2 - t.2.1) - 2 * E * (a2 - (a1 + ((n + 1 : Nat) : Int))) - D
        rw [hsync]
        push_cast
        ring
      · show 2 * E - 2 * D ≤ t.2.2 + 2 * E
        omega
      · show t.2.2 + 2 * E ≤ 2 * E - 1
        omega
    · have hBlt : t.2.1 < b2 := by
        rcases lt_or_le t.2.1 b2 with h | h
        · exact h
        · exfalso
          have hBeq : t.2.1 = b2 := le_antisymm hB2 h
          have hu : a2 - (a1 + (n : Int)) = D - n := by omega
          rw [hBeq, hu] at hsync
          have hkey : t.2.2 = -(2 * E * (D - (n : Int) - 1)) - D := by
            rw [hsync]; ring
          have hnn : 0 ≤ 2 * E * (D - (n : Int) - 1) :=
            mul_nonneg (by omega) (by omega)
          omega
      have hf : blStep a2 b2 D E t = (t.1 + 1, t.2.1 + 1, t.2.2 + 2 * E - 2 * D) := by
        dsimp only [blStep]
        rw [if_neg (not_lt.mpr hPK), if_pos hAlt, if_pos hBlt]
      rw [hstep, hf]
      refine ⟨?_, ?_, ?_, ?_, ?_, ?_⟩
      · show t.1 + 1 = a1 + ((n + 1 : Nat) : Int)
        push_cast
        omega
      · show b1 ≤ t.2.1 + 1
        omega
      · show t.2.1 + 1 ≤ b2
        omega
      · show t.2.2 + 2 * E - 2 * D =
          2 * E + 2 * D * (b2 - (t.2.1 + 1)) - 2 * E * (a2 - (a1 + ((n + 1 : Nat) : Int))) - D
        rw [hsync]
        push_cast
        ring
      · show 2 * E - 2 * D ≤ t.2.2 + 2 * E - 2 * D
        omega
      · show t.2.2 + 2 * E - 2 * D ≤ 2 * E - 1
        omega

end AsciiDraw

namespace AsciiDraw

theorem blSteps_eq_map_blPt (a1 b1 a2 b2 D E : Int) (m : Nat) :
    blSteps a1 b1 a2 b2 D E (2 * E - D) m =
      (List.range m).map (blPt a1 b1 a2 b2 D E) :=
  blSteps_eq_iterates a2 b2 D E m a1 b1 (2 * E - D)

theorem blMain (a1 b1 a2 b2 D E : Int) (hDa : a2 - a1 = D) (hEb : b2 - b1 = E)
    (hD1 : 1 ≤ D) (hE0 : 0 ≤ E) (hED : E ≤ D) (h2 : 2 * E ≠ D) :
    ((a1, b1) :: blSteps a1 b1 a2 b2 D E (2 * E - D) (D + 1).toNat).toFinset.card
      = D.toNat + 1 ∧
    (a2, b2) ∈ (a1, b1) :: blSteps a1 b1 a2 b2 D E (2 * E - D) (D + 1).toNat := by
  have hN : ((D.toNat : Int)) = D := Int.toNat_of_nonneg (by omega)
  have hN1 : 1 ≤ D.toNat := by omega
  have hfuel : (D + 1).toNat = D.toNat + 1 := by omega
  have inv := blIter_inv a1 b1 a2 b2 D E hDa hEb hD1 hE0 hED
  set N := D.toNat with hNdef
  -- the state after all `D` forward iterations is exactly the endpoint
  have hend : blIter a1 b1 a2 b2 D E N = (a2, b2, 2 * E - D) := by
    obtain ⟨hA, hB1, hB2, hsync, hw1, hw2⟩ := inv N (by omega)
    have hzero : a2 - (a1 + (N : Int)) = 0 := by omega
    rw [hzero] at hsync
    have hBeq : (blIter a1 b1 a2 b2 D E N).2.1 = b2 := by
      rcases lt_or_le (blIter a1 b1 a2 b2 D E N).2.1 b2 with h | h
      · exfalso
        have hw : 1 ≤ b2 - (blIter a1 b1 a2 b2 D E N).2.1 := by omega
        have hprod : 2 * D ≤ 2 * D * (b2 - (blIter a1 b1 a2 b2 D E N).2.1) :=
          le_mul_of_one_le_right (by omega) hw
        have hkey : (blIter a1 b1 a2 b2 D E N).2.2 =
            2 * E + 2 * D * (b2 - (blIter a1 b1 a2 b2 D E N).2.1) - D := by
          rw [hsync]; ring
        omega
      · omega
    have hpk : (blIter a1 b1 a2 b2 D E N).2.2 = 2 * E - D := by
      rw [hsync, hBeq]; ring
    have hA2 : (blIter a1 b1 a2 b2 D E N).1 = a2 := by omega
    exact Prod.ext_iff.mpr ⟨hA2, Prod.ext_iff.mpr ⟨hBeq, hpk⟩⟩
  -- the first coordinate of the point plotted by iteration `i`
  have hfwd : ∀ i : Nat, i < N → (blPt a1 b1 a2 b2 D E i).1 = a1 + i + 1 := by
    intro i hi
    obtain ⟨hA, -, -, -, -, -⟩ := inv (i + 1) (by push_cast; omega)
    show (blIter a1 b1 a2 b2 D E (i + 1)).1 = a1 + i + 1
    rw [hA]; push_cast; ring
  -- the endpoint is the point of iteration `N - 1`
  have hGend : blPt a1 b1 a2 b2 D E (N - 1) = (a2, b2) := by
    show pos (blIter a1 b1 a2 b2 D E (N - 1 + 1)) = (a2, b2)
    rw [Nat.sub_add_cancel hN1, hend]
    rfl
  have hlast : blIter a1 b1 a2 b2 D E (N + 1) = blStep a2 b2 D E (a2, b2, 2 * E - D) := by
    show (blStep a2 b2 D E)^[N + 1] (a1, b1, 2 * E - D) = _
    rw [Function.iterate_succ_apply']
    exact congrArg _ hend
  have hnotlt : ¬ a2 < a2 := lt_irrefl a2
  -- the point of the extra final iteration repeats an earlier point
  have hdup : blPt a1 b1 a2 b2 D E N ∈
      (a1, b1) :: (List.range N).map (blPt a1 b1 a2 b2 D E) := by
    rcases lt_or_gt_of_ne h2 with hlt | hgt
    · -- `2E < D`: the final iteration steps back to `(a2 - 1, b2)`
      have hfin : blPt a1 b1 a2 b2 D E N = (a2 - 1, b2) := by
        show pos (blIter a1 b1 a2 b2 D E (N + 1)) = _
        rw [hlast]
        dsimp only [blStep]
        rw [if_pos (by omega : (2 : Int) * E - D < 0), if_neg hnotlt]
        rfl
      rcases eq_or_lt_of_le hN1 with h1 | h2N
      · have hD1' : D = 1 := by omega
        have hE0' : E = 0 := by omega
        have heq : blPt a1 b1 a2 b2 D E N = (a1, b1) := by
          rw [hfin]
          exact Prod.ext_iff.mpr ⟨by omega, by omega⟩
        rw [heq]
        exact List.mem_cons_self _ _
      · obtain ⟨hA', hB1', hB2', hsync', hw1', hw2'⟩ := inv (N - 1) (by omega)
        have hc : ((N - 1 : Nat) : Int) = (N : Int) - 1 := by omega
        rw [hc] at hA' hsync'
        have hu1 : a2 - (a1 + ((N : Int) - 1)) = 1 := by omega
        rw [hu1] at hsync'
        have hkey : (blIter a1 b1 a2 b2 D E (N - 1)).2.2 =
            2 * D * (b2 - (blIter a1 b1 a2 b2 D E (N - 1)).2.1) - D := by
          rw [hsync']; ring
        have hB' : (blIter a1 b1 a2 b2 D E (N - 1)).2.1 = b2 := by
          rcases lt_or_le (blIter a1 b1 a2 b2 D E (N - 1)).2.1 b2 with h | h
          · exfalso
            have hw : 1 ≤ b2 - (blIter a1 b1 a2 b2 D E (N - 1)).2.1 := by omega
            have hprod : 2 * D ≤ 2 * D * (b2 - (blIter a1 b1 a2 b2 D E (N - 1)).2.1) :=
              le_mul_of_one_le_right (by omega) hw
            omega
          · omega
        have hmap : blPt a1 b1 a2 b2 D E (N - 2) = (a2 - 1, b2) := by
          show pos (blIter a1 b1 a2 b2 D E (N - 2 + 1)) = _
          have h21 : N - 2 + 1 = N - 1 := by omega
          rw [h21]
          refine Prod.ext_iff.mpr ⟨?_, ?_⟩
          · show (blIter a1 b1 a2 b2 D E (N - 1)).1 = a2 - 1
            omega
          · exact hB'
        rw [hfin, ← hmap]
        exact List.mem_cons_of_mem _
          (List.mem_map.mpr ⟨N - 2, List.mem_range.mpr (by omega), rfl⟩)
    · -- `D < 2E`: the final iteration steps back to `(a2 - 1, b2 - 1)`
      have hfin : blPt a1 b1 a2 b2 D E N = (a2 - 1, b2 - 1) := by
        show pos (blIter a1 b1 a2 b2 D E (N + 1)) = _
        rw [hlast]
        dsimp only [blStep]
        rw [if_neg (by omega : ¬ ((2 : Int) * E - D < 0)), if_neg hnotlt,
          if_neg (lt_irrefl b2)]
        rfl
      rcases eq_or_lt_of_le hN1 with h1 | h2N
      · have hD1' : D = 1 := by omega
        have hE1' : E = 1 := by omega
        have heq : blPt a1 b1 a2 b2 D E N = (a1, b1) := by
          rw [hfin]
          exact Prod.ext_iff.mpr ⟨by omega, by omega⟩
        rw [heq]
        exact List.mem_cons_self _ _
      · obtain ⟨hA', hB1', hB2', hsync', hw1', hw2'⟩ := inv (N - 1) (by omega)
        have hc : ((N - 1 : Nat) : Int) = (N : Int) - 1 := by omega
        rw [hc] at hA' hsync'
        have hu1 : a2 - (a1 + ((N : Int) - 1)) = 1 := by omega
        rw [hu1] at hsync'
        have hkey : (blIter a1 b1 a2 b2 D E (N - 1)).2.2 =
            2 * D * (b2 - (blIter a1 b1 a2 b2 D E (N - 1)).2.1) - D := by
          rw [hsync']; ring
        have hwge : 1 ≤ b2 - (blIter a1 b1 a2 b2 D E (N - 1)).2.1 := by
          rcases lt_or_le (b2 - (blIter a1 b1 a2 b2 D E (N - 1)).2.1) 1 with h | h
          · exfalso
            have hP0 : 2 * D * (b2 - (blIter a1 b1 a2 b2 D E (N - 1)).2.1) ≤ 2 * D * 0 :=
              mul_le_mul_of_nonneg_left (by omega) (by omega)
            have hP0' : 2 * D * (b2 - (blIter a1 b1 a2 b2 D E (N - 1)).2.1) ≤ 0 := by
              linarith [hP0]
            omega
          · exact h
        have hwle : b2 - (blIter a1 b1 a2 b2 D E (N - 1)).2.1 ≤ 1 := by
          rcases lt_or_le 1 (b2 - (blIter a1 b1 a2 b2 D E (N - 1)).2.1) with h | h
          · exfalso
            have hP4 : 2 * D * 2 ≤ 2 * D * (b2 - (blIter a1 b1 a2 b2 D E (N - 1)).2.1) :=
              mul_le_mul_of_nonneg_left (by omega) (by omega)
            omega
          · exact h
        have hB' : (blIter a1 b1 a2 b2 D E (N - 1)).2.1 = b2 - 1 := by omega
        have hmap : blPt a1 b1 a2 b2 D E (N - 2) = (a2 - 1, b2 - 1) := by
          show pos (blIter a1 b1 a2 b2 D E (N - 2 + 1)) = _
          have h21 : N - 2 + 1 = N - 1 := by omega
          rw [h21]
          refine Prod.ext_iff.mpr ⟨?_, ?_⟩
          · show (blIter a1 b1 a2 b2 D E (N - 1)).1 = a2 - 1
            omega
          · exact hB'
        rw [hfin, ← hmap]
        exact List.mem_cons_of_mem _
          (List.mem_map.mpr ⟨N - 2, List.mem_range.mpr (by omega), rfl⟩)
  -- the start point and the first `N` loop points are pairwise distinct
  have hnod : ((a1, b1) :: (List.range N).map (blPt a1 b1 a2 b2 D E)).Nodup := by
    refine List.nodup_cons.mpr ⟨?_, ?_⟩
    · intro hmem
      obtain ⟨i, hi, hGi⟩ := List.mem_map.mp hmem
      have h1 := hfwd i (List.mem_range.mp hi)
      rw [hGi] at h1
      have h1' : a1 = a1 + (i : Int) + 1 := h1
      omega
    · refine List.Nodup.map_on ?_ (List.nodup_range N)
      intro i hi j hj hij
      have ha := hfwd i (List.mem_range.mp hi)
      have hb := hfwd j (List.mem_range.mp hj)
      rw [hij] at ha
      have : a1 + (i : Int) + 1 = a1 + (j : Int) + 1 := by rw [← ha, ← hb]
      omega
  have hsplit : (a1, b1) :: (List.range (N + 1)).map (blPt a1 b1 a2 b2 D E) =
      ((a1, b1) :: (List.range N).map (blPt a1 b1 a2 b2 D E)) ++
        [blPt a1 b1 a2 b2 D E N] := by
    rw [List.range_succ, List.map_append]
    rfl
  rw [hfuel, blSteps_eq_map_blPt, hsplit]
  constructor
  · rw [List.toFinset_append]
    have hone : ([blPt a1 b1 a2 b2 D E N] : List (Int × Int)).toFinset
        = {blPt a1 b1 a2 b2 D E N} := by simp
    have hsub : ({blPt a1 b1 a2 b2 D E N} : Finset (Int × Int)) ⊆
        ((a1, b1) :: (List.range N).map (blPt a1 b1 a2 b2 D E)).toFinset := by
      simp only [Finset.singleton_subset_iff, List.mem_toFinset]
      exact hdup
    rw [hone, Finset.union_eq_left.mpr hsub, List.toFinset_card_of_nodup hnod]
    simp
  · rw [List.mem_append]
    left
    exact List.mem_cons_of_mem _
      (List.mem_map.mpr ⟨N - 1, List.mem_range.mpr (by omega), hGend⟩)

end AsciiDraw

namespace AsciiDraw

theorem bresenham_line_plots_false (x1 y1 x2 y2 dx dy : Int) :
    bresenham_line_plots x1 y1 x2 y2 dx dy false =
      blSteps x1 y1 x2 y2 dx dy (2 * dy - dx) (dx + 1).toNat := by
  simp [bresenham_line_plots]

theorem bresenham_line_plots_true (x1 y1 x2 y2 dx dy : Int) :
    bresenham_line_plots x1 y1 x2 y2 dx dy true =
      (blSteps x1 y1 x2 y2 dx dy (2 * dy - dx) (dx + 1).toNat).map
        (fun p => (p.2, p.1)) := by
  simp [bresenham_line_plots]

theorem swap_injective : Function.Injective (fun p : Int × Int => (p.2, p.1)) := by
  intro p q h
  rw [Prod.ext_iff] at h ⊢
  exact ⟨h.2, h.1⟩

theorem toFinset_card_map_swap (l : List (Int × Int)) :
    (l.map (fun p => (p.2, p.1))).toFinset.card = l.toFinset.card := by
  have himg : (l.map (fun p => (p.2, p.1))).toFinset =
      l.toFinset.image (fun p => (p.2, p.1)) := by
    ext q
    simp [List.mem_toFinset, List.mem_map, Finset.mem_image]
  rw [himg, Finset.card_image_of_injective _ swap_injective]

/-- Claim C1 (amended): for endpoints inside the bounds of an initialized
canvas with `x1 ≤ x2`, `y1 ≤ y2`, `(x1, y1) ≠ (x2, y2)` and
`max(dx, dy) ≠ 2 * min(dx, dy)`, the `line` handler's plot calls (the
explicit start-point plot plus the rasterizer loop) target exactly
`1 + max(|x2 - x1|, |y2 - y1|)` distinct raster positions, including both
endpoints. -/
theorem line_plots_distinct_card (g : Grid) (x1 y1 x2 y2 : Int)
    (hg : g.initialized = true)
    (hin1 : in_bounds g x1 y1 = true) (hin2 : in_bounds g x2 y2 = true)
    (hx : x1 ≤ x2) (hy : y1 ≤ y2) (hne : ¬(x1 = x2 ∧ y1 = y2))
    (hratio : max (x2 - x1) (y2 - y1) ≠ 2 * min (x2 - x1) (y2 - y1)) :
    line g x1 y1 x2 y2 = (plotList g (line_plots x1 y1 x2 y2), []) ∧
    (line_plots x1 y1 x2 y2).toFinset.card
      = max (x2 - x1).natAbs (y2 - y1).natAbs + 1 ∧
    (x1, y1) ∈ line_plots x1 y1 x2 y2 ∧
    (x2, y2) ∈ line_plots x1 y1 x2 y2 := by
  refine ⟨line_of_initialized g x1 y1 x2 y2 hg, ?_⟩
  have hax : |x2 - x1| = x2 - x1 := abs_of_nonneg (by omega)
  have hay : |y2 - y1| = y2 - y1 := abs_of_nonneg (by omega)
  dsimp only [line_plots]
  rw [hax, hay]
  by_cases hcmp : y2 - y1 < x2 - x1
  · rw [if_pos hcmp, bresenham_line_plots_false]
    have hne2 : 2 * (y2 - y1) ≠ x2 - x1 := by
      rw [max_eq_left hcmp.le, min_eq_right hcmp.le] at hratio
      omega
    have hmain := blMain x1 y1 x2 y2 (x2 - x1) (y2 - y1) rfl rfl
      (by omega) (by omega) (by omega) hne2
    refine ⟨?_, List.mem_cons_self _ _, hmain.2⟩
    rw [hmain.1]
    omega
  · push_neg at hcmp
    rw [if_neg (not_lt.mpr hcmp), bresenham_line_plots_true]
    have hne2 : 2 * (x2 - x1) ≠ y2 - y1 := by
      rw [max_eq_right hcmp, min_eq_left hcmp] at hratio
      omega
    have hD1 : 1 ≤ y2 - y1 := by
      rcases lt_or_le y1 y2 with h | h
      · omega
      · exfalso
        exact hne ⟨by omega, by omega⟩
    have hmain := blMain y1 x1 y2 x2 (y2 - y1) (x2 - x1) rfl rfl hD1
      (by omega) (by omega) hne2
    have hconsmap : (x1, y1) :: (blSteps y1 x1 y2 x2 (y2 - y1) (x2 - x1)
          (2 * (x2 - x1) - (y2 - y1)) ((y2 - y1) + 1).toNat).map (fun p => (p.2, p.1)) =
        ((y1, x1) :: blSteps y1 x1 y2 x2 (y2 - y1) (x2 - x1)
          (2 * (x2 - x1) - (y2 - y1)) ((y2 - y1) + 1).toNat).map (fun p => (p.2, p.1)) := rfl
    rw [hconsmap]
    refine ⟨?_, ?_, ?_⟩
    · rw [toFinset_card_map_swap, hmain.1]
      omega
    · exact List.mem_map.mpr ⟨(y1, x1), List.mem_cons_self _ _, rfl⟩
    · exact List.mem_map.mpr ⟨(y2, x2), hmain.2, rfl⟩

/-- Claim C1 as stated is false: on the initialized 10 × 10 canvas with both
endpoints `(0, 0)` and `(2, 1)` in bounds, the `line` handler's plot calls
target 4 distinct raster positions — the extra final loop iteration plots the
fresh off-segment cell `(1, 0)` — not `1 + max(2, 1) = 3`. -/
theorem line_plots_count_counterexample :
    exGrid.initialized = true ∧
    in_bounds exGrid 0 0 = true ∧ in_bounds exGrid 2 1 = true ∧
    line_plots 0 0 2 1 = [(0, 0), (1, 1), (2, 1), (1, 0)] ∧
    (line_plots 0 0 2 1).toFinset.card = 4 ∧
    ¬ (line_plots 0 0 2 1).toFinset.card
        = max ((2 : Int) - 0).natAbs ((1 : Int) - 0).natAbs + 1 := by
  exact ⟨rfl, rfl, rfl, by decide, by decide, by decide⟩

/-- Witness for the amended C1 at the line from `(0, 0)` to `(3, 1)` on the
sample canvas. -/
theorem line_plots_distinct_card_witness :
    ((0 : Int) ≤ 3 ∧ (0 : Int) ≤ 1 ∧ ¬((0 : Int) = 3 ∧ (0 : Int) = 1) ∧
      max ((3 : Int) - 0) ((1 : Int) - 0) ≠ 2 * min ((3 : Int) - 0) ((1 : Int) - 0)) ∧
    line exGrid 0 0 3 1 = (plotList exGrid (line_plots 0 0 3 1), []) ∧
    (line_plots 0 0 3 1).toFinset.card
      = max ((3 : Int) - 0).natAbs ((1 : Int) - 0).natAbs + 1 ∧
    ((0 : Int), (0 : Int)) ∈ line_plots 0 0 3 1 ∧
    ((3 : Int), (1 : Int)) ∈ line_plots 0 0 3 1 := by
  have h := line_plots_distinct_card exGrid 0 0 3 1 rfl (by decide) (by decide)
    (by decide) (by decide) (by decide) (by decide)
  exact ⟨⟨by decide, by decide, by decide, by decide⟩, h.1, h.2.1, h.2.2.1, h.2.2.2⟩

end AsciiDraw
